import Mathlib

/-!
Verification of the Gainr cryptocurrency portfolio tracker's
price-ingestion and derived-metrics layer, shallowly embedded from the
TypeScript source (`lib/api` module, `PortfolioTracker` component and
`lib/types` validation schemas).  JavaScript numbers are modelled as
rationals (`ℚ`); JS divisions whose result can be non-finite
(`Infinity`/`NaN`, i.e. division by zero) are modelled as `Option ℚ`
with `none` for the non-finite outcome; untyped JSON fields are
modelled by small inductive types carrying JS truthiness.
-/

namespace Gainr

/-! ## Risk scoring (`calculateRiskScore` in lib/api)

The source builds four factor records, each with a numeric `score`
delta, folds the deltas onto a base score of 70 with `reduce`, and
clamps the total to [0, 100].  `MarketData` mirrors the fields the
function reads. -/

structure MarketData where
  price_change_percentage_24h : ℚ
  price_change_percentage_7d : ℚ
  total_volume : ℚ
  market_cap : ℚ
  current_price_usd : ℚ
deriving DecidableEq

/-- The four factor `score` deltas, in source order:
24h price change, weekly trend, market cap, trading volume. -/
def riskFactorScores (m : MarketData) : List ℚ :=
  [ if |m.price_change_percentage_24h| > 10 then -10 else 0,
    if m.price_change_percentage_7d > 0 then 5 else -5,
    if m.market_cap > 1000000000 then 10 else 0,
    if m.total_volume > m.market_cap * (1/10) then 5 else 0 ]

/-- `const baseScore = 70` in the source. -/
def baseScore : ℚ := 70

/-- `factors.reduce((acc, factor) => acc + factor.score, baseScore)`. -/
def totalScore (m : MarketData) : ℚ :=
  (riskFactorScores m).foldl (· + ·) baseScore

/-- `Math.max(0, Math.min(100, totalScore))`. -/
def calculateRiskScore (m : MarketData) : ℚ :=
  max 0 (min 100 (totalScore m))

/-! ## The backoff-retry fetcher (`fetchWithRetry` in lib/api)

One `fetch` attempt yields either a response carrying an HTTP status
code or a network-level error (the rejected promise).  The loop body:
status 429 waits `min(1000·2^i, 30000)` and continues without touching
`lastError`; a non-ok status throws inside the `try`, so it is caught
like a network error: `lastError` is set, the error is rethrown when
`i === attempts - 1`, otherwise the same backoff wait runs and the loop
continues.  Falling off the loop throws `lastError` if set, else the
generic maximum-retry error. -/

inductive FetchOutcome where
  | resp (status : ℕ)
  | netError
deriving DecidableEq

inductive FetchError where
  | http (status : ℕ)
  | network
  | maxRetries
deriving DecidableEq

/-- `Response.ok`: status in the range 200–299. -/
def respOk (status : ℕ) : Bool := 200 ≤ status && status < 300

/-- `Math.min(1000 * Math.pow(2, i), 30000)`. -/
def backoff (i : ℕ) : ℕ := min (1000 * 2 ^ i) 30000

deriving instance DecidableEq for Except

/-- Result of a `fetchWithRetry` run: the returned response status or
thrown error, the number of `fetch` calls performed, and the list of
backoff waits taken, in order. -/
structure RunResult where
  result : Except FetchError ℕ
  attemptsUsed : ℕ
  delays : List ℕ
deriving DecidableEq

/-- The `for (let i = 0; i < attempts; i++)` loop, with `remaining`
iterations left, so the loop index is `i` and `remaining = attempts - i`;
`remaining = 0` is the loop exit (`throw lastError ?? maxRetries`) and
`r = 0` inside a failure branch is the `i === attempts - 1` check. -/
def fetchGo (responses : ℕ → FetchOutcome) :
    (remaining i : ℕ) → Option FetchError → List ℕ → RunResult
  | 0, i, lastError, delays => ⟨.error (lastError.getD .maxRetries), i, delays⟩
  | (r + 1), i, lastError, delays =>
    match responses i with
    | .resp s =>
      if s = 429 then
        fetchGo responses r (i + 1) lastError (delays ++ [backoff i])
      else if respOk s then
        ⟨.ok s, i + 1, delays⟩
      else if r = 0 then
        ⟨.error (.http s), i + 1, delays⟩
      else
        fetchGo responses r (i + 1) (some (.http s)) (delays ++ [backoff i])
    | .netError =>
      if r = 0 then
        ⟨.error .network, i + 1, delays⟩
      else
        fetchGo responses r (i + 1) (some .network) (delays ++ [backoff i])

/-- `fetchWithRetry(url, attempts)`: run the loop from `i = 0` with
`lastError = null` and no waits taken yet; `responses i` is what the
`i`-th `fetch` of this run produces. -/
def fetchWithRetry (responses : ℕ → FetchOutcome) (attempts : ℕ) : RunResult :=
  fetchGo responses attempts 0 none []

/-- An attempt outcome the `catch` block accounts as a failure: a
network error, or a response that is neither ok nor a 429. -/
def isFailure : FetchOutcome → Prop
  | .resp s => s ≠ 429 ∧ respOk s = false
  | .netError => True

/-! ## Spot price (`getCryptoPrice` in lib/api)

A JSON field holding the quote-currency price is either a number or
missing (`undefined`, also covering an absent key along the optional
chain).  JS truthiness of a number is `≠ 0`; `undefined` is falsy. -/

inductive JsVal where
  | jnum (q : ℚ)
  | jundef
deriving DecidableEq

def JsVal.truthy : JsVal → Bool
  | .jnum q => decide (q ≠ 0)
  | .jundef => false

def JsVal.isNum : JsVal → Bool
  | .jnum _ => true
  | .jundef => false

inductive PriceError where
  | invalidPriceData
deriving DecidableEq

/-- The response body of `simple/price`: each asset key maps to the
`usd` field of its record (`none` when the record has no `usd`). -/
def CryptoPriceResp : Type := List (String × Option JsVal)

/-- `data[cryptoId]?.usd`: `undefined` when the key is absent,
otherwise the record's `usd` field. -/
def usdField (data : CryptoPriceResp) (cryptoId : String) : Option JsVal :=
  match List.lookup cryptoId data with
  | none => none
  | some u => u

/-- `if (!data[cryptoId]?.usd) throw new Error("Invalid price data received");
return data[cryptoId].usd;` — the body of `getCryptoPrice` after the
response is parsed. -/
def getCryptoPrice (data : CryptoPriceResp) (cryptoId : String) :
    Except PriceError JsVal :=
  match usdField data cryptoId with
  | none => .error .invalidPriceData
  | some v => if v.truthy then .ok v else .error .invalidPriceData

/-! ## String formatting shared by the news generator -/

/-- `Number.prototype.toFixed(2)`: round to the nearest multiple of
0.01, ties toward `+∞` per the ECMA choice of the larger candidate,
then print with exactly two decimals. -/
def toFixed2 (q : ℚ) : String :=
  let n : ℤ := ⌊q * 100 + 1 / 2⌋
  let m : ℕ := n.natAbs
  (if n < 0 then "-" else "") ++ toString (m / 100) ++ "." ++
    (if m % 100 < 10 then "0" else "") ++ toString (m % 100)

/-- Substring test: some contiguous run of `hay` equals `needle`. -/
def strContainsSub (hay needle : String) : Bool :=
  let h := hay.toList
  let n := needle.toList
  (List.range (h.length + 1)).any fun i =>
    decide ((h.drop i).take n.length = n)

/-! ## Synthetic news (`getCryptoNews` in lib/api)

`CryptoDetails` mirrors the fields the generator reads; the four
market-data fields keep their JSON-level type (`JsVal`) because the
source guards the two percentage items with `typeof === 'number'` and
the volume/market-cap items with plain truthiness. -/

structure NewsItem where
  title : String
  url : String
  published_at : String
  source : String
  description : String
deriving DecidableEq

structure MarketDataJs where
  price_change_percentage_24h : JsVal
  price_change_percentage_7d : JsVal
  total_volume : JsVal
  market_cap : JsVal
  current_price_usd : ℚ
deriving DecidableEq

structure CryptoDetails where
  name : String
  market_data : MarketDataJs
  last_updated : String
  homepage0 : String
deriving DecidableEq

/-- The four conditional `news.push` blocks, in source order. -/
def getCryptoNews (d : CryptoDetails) : List NewsItem :=
  (match d.market_data.price_change_percentage_24h with
   | .jnum priceChange =>
     [⟨d.name ++ (if priceChange ≥ 0 then " gains " else " drops ") ++
         toFixed2 |priceChange| ++ "% in 24h",
       d.homepage0, d.last_updated, "Market Data",
       "The price of " ++ d.name ++ " has " ++
         (if priceChange ≥ 0 then "increased" else "decreased") ++
         " to $" ++ toFixed2 d.market_data.current_price_usd⟩]
   | .jundef => []) ++
  (match d.market_data.price_change_percentage_7d with
   | .jnum weeklyChange =>
     [⟨d.name ++ (if weeklyChange ≥ 0 then " rises " else " falls ") ++
         toFixed2 |weeklyChange| ++ "% this week",
       d.homepage0, d.last_updated, "Market Data",
       "Weekly performance shows a " ++
         (if weeklyChange ≥ 0 then "positive" else "negative") ++
         " trend in " ++ d.name ++ " price"⟩]
   | .jundef => []) ++
  (match d.market_data.total_volume with
   | .jnum v =>
     if v ≠ 0 then
       [⟨d.name ++ " records $" ++ toFixed2 (v / 1000000) ++
           "M in daily trading",
         d.homepage0, d.last_updated, "Market Data",
         "24-hour trading volume reaches significant levels as market activity continues"⟩]
     else []
   | .jundef => []) ++
  (match d.market_data.market_cap with
   | .jnum c =>
     if c ≠ 0 then
       [⟨d.name ++ " market cap at $" ++ toFixed2 (c / 1000000000) ++ "B",
         d.homepage0, d.last_updated, "Market Data",
         "Current market valuation reflects " ++ d.name ++
           "\x27s position in the crypto market"⟩]
     else []
   | .jundef => [])

/-! ## Portfolio valuation (`PortfolioTracker` component)

Positions carry the fields the component reads; a price map is partial
(a failed fetch leaves the asset's entry absent), and an absent entry
reads as 0 via `prices?.[item.cryptoId] ?? 0`. -/

structure Position where
  cryptoId : String
  amount : ℚ
  initialInvestment : ℚ
deriving DecidableEq

def priceOr0 (prices : String → Option ℚ) (cryptoId : String) : ℚ :=
  (prices cryptoId).getD 0

/-- `portfolio.reduce((sum, item) => sum + currentPrice * item.amount, 0)`. -/
def totalValue (prices : String → Option ℚ) (portfolio : List Position) : ℚ :=
  portfolio.foldl (fun sum item => sum + priceOr0 prices item.cryptoId * item.amount) 0

/-- `portfolio.reduce((sum, item) => sum + Number(item.initialInvestment), 0)`. -/
def totalInvestment (portfolio : List Position) : ℚ :=
  portfolio.foldl (fun sum item => sum + item.initialInvestment) 0

def totalProfit (prices : String → Option ℚ) (portfolio : List Position) : ℚ :=
  totalValue prices portfolio - totalInvestment portfolio

/-- `totalInvestment > 0 ? ((totalValue - totalInvestment) / totalInvestment) * 100 : 0`. -/
def profitPercentage (prices : String → Option ℚ) (portfolio : List Position) : ℚ :=
  if totalInvestment portfolio > 0 then
    (totalValue prices portfolio - totalInvestment portfolio) / totalInvestment portfolio * 100
  else 0

/-- JS division as written in the source row computation: a zero
denominator gives a non-finite number (`Infinity`/`NaN`), modelled as
`none`. -/
def jsDiv (a b : ℚ) : Option ℚ := if b = 0 then none else some (a / b)

structure PositionMetrics where
  purchasePrice : Option ℚ
  currentValue : ℚ
  profit : ℚ
  profitPercent : Option ℚ
deriving DecidableEq

/-- The per-row computation of the portfolio table:
`currentPrice = prices?.[item.cryptoId] ?? 0`,
`purchasePrice = item.initialInvestment / item.amount`,
`currentValue = currentPrice * item.amount`,
`profit = currentValue - item.initialInvestment`,
`profitPercentage = (profit / item.initialInvestment) * 100`. -/
def positionMetrics (prices : String → Option ℚ) (item : Position) : PositionMetrics :=
  let currentPrice := priceOr0 prices item.cryptoId
  let currentValue := currentPrice * item.amount
  let profit := currentValue - item.initialInvestment
  ⟨jsDiv item.initialInvestment item.amount, currentValue, profit,
    (jsDiv profit item.initialInvestment).map (· * 100)⟩

/-! ## Add-investment validation (`addInvestmentSchema` in lib/types)

Each text field is run through `Number(val)`; the transform receives
the parsed result (`none` when the parse gives `NaN`) and applies the
source's checks. -/

/-- `amount` transform: `if (isNaN(num)) throw "Invalid amount";
if (num < 0) throw "Amount must be positive"; return num;`. -/
def amountTransform (num : Option ℚ) : Except String ℚ :=
  match num with
  | none => .error ("Invalid amount")
  | some q => if q < 0 then .error ("Amount must be positive") else .ok q

/-- `initialInvestment` transform: `if (isNaN(num)) throw "Invalid investment amount";
if (num < 0) throw "Investment must be positive"; return num;`. -/
def initialInvestmentTransform (num : Option ℚ) : Except String ℚ :=
  match num with
  | none => .error ("Invalid investment amount")
  | some q => if q < 0 then .error ("Investment must be positive") else .ok q

/-! ## Theorems -/

/-- A left fold that adds `f x` at each step computes `init` plus the
sum of the mapped list. -/
theorem foldl_add_eq_sum {α : Type} (f : α → ℚ) :
    ∀ (l : List α) (init : ℚ),
      l.foldl (fun s x => s + f x) init = init + (l.map f).sum := by
  intro l
  induction l with
  | nil => intro init; simp
  | cons a t ih => intro init; simp [ih, add_assoc]

/-- C6: for every input snapshot, whatever the real values of the 24h
change, 7d change, market cap and volume, `calculateRiskScore` returns
a score in the closed interval [0, 100]. -/
theorem calculateRiskScore_bounds (m : MarketData) :
    0 ≤ calculateRiskScore m ∧ calculateRiskScore m ≤ 100 := by
  refine ⟨le_max_left 0 _, max_le (by norm_num) (min_le_left _ _)⟩

/-- C7: on the snapshot with 24h change 12, 7d change −3, market cap
2·10⁹ and volume 3·10⁸ (any current price), the four factor deltas are
−10, −5, +10, +5, and the score is the clamp of 70−10−5+10+5, i.e. 70. -/
theorem riskScore_scenario (price : ℚ) :
    riskFactorScores ⟨12, -3, 300000000, 2000000000, price⟩ = [-10, -5, 10, 5] ∧
    calculateRiskScore ⟨12, -3, 300000000, 2000000000, price⟩ =
      max 0 (min 100 (70 - 10 - 5 + 10 + 5)) ∧
    calculateRiskScore ⟨12, -3, 300000000, 2000000000, price⟩ = 70 := by
  refine ⟨?_, ?_, ?_⟩ <;>
    norm_num [riskFactorScores, calculateRiskScore, totalScore, baseScore, abs]

/-- C10: the add-investment validation accepts a held quantity of 0 —
only `NaN` and strictly negative quantities are rejected — although its
own rejection message reads "Amount must be positive" and the derived
purchase price divides by the quantity.  Cost basis follows the same
`≥ 0` check. -/
theorem addInvestment_zero_amount_accepted :
    amountTransform (some 0) = Except.ok 0 ∧
    initialInvestmentTransform (some 0) = Except.ok 0 ∧
    amountTransform (some (-1)) = Except.error ("Amount must be positive") ∧
    amountTransform none = Except.error ("Invalid amount") := by
  refine ⟨rfl, rfl, by norm_num [amountTransform], rfl⟩

/-- C3 counterexample: a response that carries the numeric price 0 for
the requested key is rejected with the invalid-price-data error, even
though 0 is a numeric quote-currency price. -/
theorem getCryptoPrice_zero_price_rejected_cex :
    getCryptoPrice [("bitcoin", some (JsVal.jnum 0))] "bitcoin" =
      Except.error PriceError.invalidPriceData ∧
    (JsVal.jnum 0).isNum = true := by
  exact ⟨rfl, rfl⟩

/-- C3 amended: `getCryptoPrice` fails with the invalid-price-data
error exactly when the `usd` value reached by `data[cryptoId]?.usd` is
absent or JS-falsy — so the numeric price 0 is rejected — and returns
the value whenever it is truthy. -/
theorem getCryptoPrice_truthiness (data : CryptoPriceResp) (cryptoId : String) :
    (getCryptoPrice data cryptoId = Except.error PriceError.invalidPriceData ↔
      usdField data cryptoId = none ∨
        ∃ v, usdField data cryptoId = some v ∧ v.truthy = false) ∧
    (∀ v, usdField data cryptoId = some v → v.truthy = true →
      getCryptoPrice data cryptoId = Except.ok v) := by
  constructor
  · cases h : usdField data cryptoId with
    | none => simp [getCryptoPrice, h]
    | some v =>
      cases hv : v.truthy <;> simp [getCryptoPrice, h, hv]
  · intro v hv ht
    simp [getCryptoPrice, hv, ht]

/-- Running the retry loop on nothing but 429 responses: `lastError`
is never written, so the loop exit throws the generic maximum-retry
error, after one backoff wait per loop index. -/
theorem fetchGo_all429 (responses : ℕ → FetchOutcome) :
    ∀ (r i : ℕ) (lastError : Option FetchError) (delays : List ℕ),
      (∀ j, i ≤ j → j < i + r → responses j = FetchOutcome.resp 429) →
      fetchGo responses r i lastError delays =
        ⟨Except.error (lastError.getD FetchError.maxRetries), i + r,
          delays ++ (List.range' i r).map backoff⟩ := by
  intro r
  induction r with
  | zero => intro i lastError delays _h; simp [fetchGo]
  | succ r ih =>
    intro i lastError delays h
    have h429 : responses i = FetchOutcome.resp 429 := h i (le_refl i) (by omega)
    have hrest : ∀ j, i + 1 ≤ j → j < (i + 1) + r → responses j = FetchOutcome.resp 429 := by
      intro j h1 h2
      exact h j (by omega) (by omega)
    rw [fetchGo, h429]
    simp only [if_pos rfl]
    rw [ih (i + 1) lastError (delays ++ [backoff i]) hrest]
    simp only [if_true, RunResult.mk.injEq, List.range'_succ, List.map_cons,
      List.append_assoc, List.singleton_append, true_and, and_true]
    omega

/-- C1: a run whose attempt budget is exhausted purely on HTTP 429
responses never takes the terminal-failure path of an ordinary HTTP
error — `lastError` stays unset and the run fails with the generic
maximum-retry error — while each 429 still waits
`min(1000·2^attemptIndex, 30000)` ms and retries in the same loop. -/
theorem fetch429_not_terminal_http (attempts : ℕ) (responses : ℕ → FetchOutcome)
    (h : ∀ i, i < attempts → responses i = FetchOutcome.resp 429) :
    (fetchWithRetry responses attempts).result = Except.error FetchError.maxRetries ∧
    (fetchWithRetry responses attempts).attemptsUsed = attempts ∧
    (fetchWithRetry responses attempts).delays = (List.range attempts).map backoff := by
  have hgo := fetchGo_all429 responses attempts 0 none []
    (by intro j _ hj; exact h j (by omega))
  rw [fetchWithRetry, hgo]
  simp [List.range_eq_range']

/-- C1 witness: three attempts, all rate limited — the run ends with
the maximum-retry error after waits of 1000, 2000 and 4000 ms. -/
theorem fetch429_not_terminal_http_witness :
    (fetchWithRetry (fun _ => FetchOutcome.resp 429) 3).result =
      Except.error FetchError.maxRetries ∧
    (fetchWithRetry (fun _ => FetchOutcome.resp 429) 3).attemptsUsed = 3 ∧
    (fetchWithRetry (fun _ => FetchOutcome.resp 429) 3).delays = [1000, 2000, 4000] := by
  have h := fetch429_not_terminal_http 3 (fun _ => FetchOutcome.resp 429)
    (fun i _ => rfl)
  exact ⟨h.1, h.2.1, by rw [h.2.2]; decide⟩

/-- Running the retry loop on `n` accounted failures followed by an ok
response: the success is returned on the spot, after one backoff wait
per failed loop index. -/
theorem fetchGo_failures_then_ok (responses : ℕ → FetchOutcome) (s : ℕ)
    (hok : respOk s = true) :
    ∀ (n r i : ℕ) (lastError : Option FetchError) (delays : List ℕ),
      n + 1 ≤ r →
      (∀ j, j < n → isFailure (responses (i + j))) →
      responses (i + n) = FetchOutcome.resp s →
      fetchGo responses r i lastError delays =
        ⟨Except.ok s, i + n + 1, delays ++ (List.range' i n).map backoff⟩ := by
  have hs429 : ¬ (s = 429) := by
    intro e
    rw [e] at hok
    simp [respOk] at hok
  intro n
  induction n with
  | zero =>
    intro r i lastError delays hr _h hs
    obtain ⟨r', rfl⟩ : ∃ r', r = r' + 1 := ⟨r - 1, by omega⟩
    rw [Nat.add_zero] at hs
    rw [fetchGo, hs]
    simp [hs429, hok]
  | succ n ih =>
    intro r i lastError delays hr hf hs
    obtain ⟨r', rfl⟩ : ∃ r', r = r' + 1 := ⟨r - 1, by omega⟩
    have hrne : ¬ (r' = 0) := by omega
    have hfrest : ∀ j, j < n → isFailure (responses (i + 1 + j)) := by
      intro j hj
      have := hf (j + 1) (by omega)
      rw [show i + (j + 1) = i + 1 + j by omega] at this
      exact this
    have hsucc : responses (i + 1 + n) = FetchOutcome.resp s := by
      rw [show i + 1 + n = i + (n + 1) by omega]
      exact hs
    have hf0 := hf 0 (by omega)
    rw [Nat.add_zero] at hf0
    cases hout : responses i with
    | resp t =>
      rw [hout] at hf0
      rw [fetchGo, hout]
      simp only [if_neg hf0.1, hf0.2, Bool.false_eq_true, if_false, if_neg hrne]
      rw [ih r' (i + 1) (some (FetchError.http t)) (delays ++ [backoff i])
        (by omega) hfrest hsucc]
      simp only [RunResult.mk.injEq, List.range'_succ, List.map_cons, List.append_assoc,
        List.singleton_append, true_and, and_true]
      omega
    | netError =>
      rw [fetchGo, hout]
      simp only [if_neg hrne]
      rw [ih r' (i + 1) (some FetchError.network) (delays ++ [backoff i])
        (by omega) hfrest hsucc]
      simp only [RunResult.mk.injEq, List.range'_succ, List.map_cons, List.append_assoc,
        List.singleton_append, true_and, and_true]
      omega

/-- C2 counterexample: with one network failure and then a success
(k = 2), the only backoff wait — the one before attempt 2 — is
1000 ms, not the claimed min(1000·2^(2−1), 30000) = 2000 ms. -/
theorem fetchRetry_backoff_exponent_cex :
    (fetchWithRetry
      (fun i => if i = 0 then FetchOutcome.netError else FetchOutcome.resp 200) 2).delays =
      [1000] ∧
    (1000 : ℕ) ≠ min (1000 * 2 ^ (2 - 1)) 30000 := by
  exact ⟨rfl, by norm_num⟩

/-- C2 amended: with a budget of m ≥ k attempts, a run observing k−1
accounted failures then an ok response returns that success, performs
exactly k attempts, and the backoff delay taken before attempt i (for
2 ≤ i ≤ k) is min(1000·2^(i−2), 30000) ms — the exponent is the 0-based
index of the attempt that just failed, i−2, not i−1. -/
theorem fetchRetry_failures_then_success (m k s : ℕ) (responses : ℕ → FetchOutcome)
    (hk : 1 ≤ k) (hkm : k ≤ m)
    (hfail : ∀ i, i < k - 1 → isFailure (responses i))
    (hsucc : responses (k - 1) = FetchOutcome.resp s)
    (hok : respOk s = true) :
    (fetchWithRetry responses m).result = Except.ok s ∧
    (fetchWithRetry responses m).attemptsUsed = k ∧
    (fetchWithRetry responses m).delays = (List.range (k - 1)).map backoff ∧
    ∀ i, 2 ≤ i → i ≤ k →
      (fetchWithRetry responses m).delays.getD (i - 2) 0 =
        min (1000 * 2 ^ (i - 2)) 30000 := by
  have hgo := fetchGo_failures_then_ok responses s hok (k - 1) m 0 none []
    (by omega) (by intro j hj; simpa using hfail j hj) (by simpa using hsucc)
  have hused : (fetchWithRetry responses m).attemptsUsed = k := by
    rw [fetchWithRetry, hgo]
    show 0 + (k - 1) + 1 = k
    omega
  have hd : (fetchWithRetry responses m).delays = (List.range (k - 1)).map backoff := by
    rw [fetchWithRetry, hgo]
    show [] ++ (List.range' 0 (k - 1)).map backoff = _
    simp [List.range_eq_range']
  refine ⟨by rw [fetchWithRetry, hgo], hused, hd, ?_⟩
  intro i h2 hik
  have hlt : i - 2 < k - 1 := by omega
  rw [hd, List.getD_eq_getElem?_getD, List.getElem?_map, List.getElem?_range hlt]
  rfl

/-- C2 witness: budget 3, two network failures then status 200 — the
run returns 200 after 3 attempts with waits 1000 and 2000 ms, and the
wait before attempt 2 is min(1000·2⁰, 30000) = 1000 ms. -/
theorem fetchRetry_failures_then_success_witness :
    (fetchWithRetry
      (fun i => if i < 2 then FetchOutcome.netError else FetchOutcome.resp 200) 3).result =
      Except.ok 200 ∧
    (fetchWithRetry
      (fun i => if i < 2 then FetchOutcome.netError else FetchOutcome.resp 200) 3).attemptsUsed = 3 ∧
    (fetchWithRetry
      (fun i => if i < 2 then FetchOutcome.netError else FetchOutcome.resp 200) 3).delays =
      [1000, 2000] := by
  have h := fetchRetry_failures_then_success 3 3 200
    (fun i => if i < 2 then FetchOutcome.netError else FetchOutcome.resp 200)
    (by omega) (le_refl 3)
    (by intro i hi
        have h2 : i < 2 := by omega
        simp [isFailure, h2])
    rfl rfl
  exact ⟨h.1, h.2.1, by rw [h.2.2.1]; decide⟩

/-- C3 witness: a response holding the truthy numeric price 5 for the
key is returned as-is. -/
theorem getCryptoPrice_truthiness_witness :
    getCryptoPrice [("bitcoin", some (JsVal.jnum 5))] "bitcoin" =
      Except.ok (JsVal.jnum 5) :=
  (getCryptoPrice_truthiness [("bitcoin", some (JsVal.jnum 5))] "bitcoin").2
    (JsVal.jnum 5) rfl rfl

/-- C4: for every partial price map and position list, the aggregation
satisfies totalValue = Σ (price-or-0 × quantity), totalInvestment =
Σ costBasis, totalProfit = totalValue − totalInvestment, and
profitPercentage = (totalProfit/totalInvestment)·100 when
totalInvestment > 0 and 0 when totalInvestment = 0; an asset whose
price is absent contributes exactly 0 to totalValue. -/
theorem valuation_aggregation (prices : String → Option ℚ) (portfolio : List Position) :
    totalValue prices portfolio =
      (portfolio.map (fun it => priceOr0 prices it.cryptoId * it.amount)).sum ∧
    totalInvestment portfolio = (portfolio.map Position.initialInvestment).sum ∧
    totalProfit prices portfolio =
      totalValue prices portfolio - totalInvestment portfolio ∧
    (0 < totalInvestment portfolio →
      profitPercentage prices portfolio =
        totalProfit prices portfolio / totalInvestment portfolio * 100) ∧
    (totalInvestment portfolio = 0 → profitPercentage prices portfolio = 0) ∧
    (∀ it ∈ portfolio, prices it.cryptoId = none →
      priceOr0 prices it.cryptoId * it.amount = 0) := by
  refine ⟨?_, ?_, rfl, ?_, ?_, ?_⟩
  · simpa using
      foldl_add_eq_sum (fun it => priceOr0 prices it.cryptoId * it.amount) portfolio 0
  · simpa using foldl_add_eq_sum Position.initialInvestment portfolio 0
  · intro h
    rw [profitPercentage, if_pos h]
    rfl
  · intro h
    simp [profitPercentage, h]
  · intro it _ hnone
    simp [priceOr0, hnone]

/-- C4 witness: a portfolio whose one position has cost basis 0 but a
fetched price of 5 for 2 units — totalValue is 10 > 0 while
profitPercentage is 0 because totalInvestment is 0. -/
theorem valuation_aggregation_witness :
    totalValue (fun s => if s = "a" then some 5 else none) [⟨"a", 2, 0⟩] = 10 ∧
    totalInvestment [(⟨"a", 2, 0⟩ : Position)] = 0 ∧
    profitPercentage (fun s => if s = "a" then some 5 else none) [⟨"a", 2, 0⟩] = 0 := by
  have h := valuation_aggregation (fun s => if s = "a" then some 5 else none) [⟨"a", 2, 0⟩]
  refine ⟨?_, ?_, h.2.2.2.2.1 ?_⟩ <;>
    norm_num [totalValue, totalInvestment, priceOr0, List.foldl]

/-- C5 counterexample: a position with quantity 1 and cost basis 0
whose asset trades at 10 — the per-position profitPercentage is the
unguarded JS division profit/0, a non-finite value, not the 0 the
claimed guard would produce. -/
theorem positionMetrics_no_zero_guard_cex :
    (positionMetrics (fun _ => some 10) ⟨"bitcoin", 1, 0⟩).profitPercent = none ∧
    (positionMetrics (fun _ => some 10) ⟨"bitcoin", 1, 0⟩).profitPercent ≠ some 0 ∧
    (positionMetrics (fun _ => some 10) ⟨"bitcoin", 1, 0⟩).profit = 10 := by
  refine ⟨?_, ?_, ?_⟩ <;> norm_num [positionMetrics, jsDiv, priceOr0]
  simp

/-- C5 amended: for quantity q > 0 the per-position metrics satisfy
purchasePrice = costBasis/q, currentValue = spotPrice·q and
profit = currentValue − costBasis; profitPercentage =
(profit/costBasis)·100 only when costBasis ≠ 0 — the computation has
no zero-denominator guard, so costBasis = 0 yields a non-finite value
instead of the aggregate computation's 0. -/
theorem positionMetrics_formulas (prices : String → Option ℚ) (item : Position)
    (hq : 0 < item.amount) :
    (positionMetrics prices item).purchasePrice =
      some (item.initialInvestment / item.amount) ∧
    (positionMetrics prices item).currentValue =
      priceOr0 prices item.cryptoId * item.amount ∧
    (positionMetrics prices item).profit =
      (positionMetrics prices item).currentValue - item.initialInvestment ∧
    (item.initialInvestment ≠ 0 →
      (positionMetrics prices item).profitPercent =
        some ((positionMetrics prices item).profit / item.initialInvestment * 100)) ∧
    (item.initialInvestment = 0 →
      (positionMetrics prices item).profitPercent = none) := by
  have hne : item.amount ≠ 0 := ne_of_gt hq
  refine ⟨?_, rfl, rfl, ?_, ?_⟩
  · simp [positionMetrics, jsDiv, hne]
  · intro h
    simp [positionMetrics, jsDiv, h]
  · intro h
    simp [positionMetrics, jsDiv, h]

/-- C5 witness: quantity 2, cost basis 10000, spot price 6000 —
purchase price 5000, current value 12000, profit 2000,
profit percentage 20. -/
theorem positionMetrics_formulas_witness :
    (positionMetrics (fun _ => some 6000) ⟨"bitcoin", 2, 10000⟩).purchasePrice =
      some 5000 ∧
    (positionMetrics (fun _ => some 6000) ⟨"bitcoin", 2, 10000⟩).currentValue = 12000 ∧
    (positionMetrics (fun _ => some 6000) ⟨"bitcoin", 2, 10000⟩).profit = 2000 ∧
    (positionMetrics (fun _ => some 6000) ⟨"bitcoin", 2, 10000⟩).profitPercent =
      some 20 := by
  have h := positionMetrics_formulas (fun _ => some 6000) ⟨"bitcoin", 2, 10000⟩
    (by norm_num)
  refine ⟨by rw [h.1]; norm_num,
    by norm_num [positionMetrics, priceOr0],
    by norm_num [positionMetrics, priceOr0], ?_⟩
  rw [h.2.2.2.1 (by norm_num)]
  norm_num [positionMetrics, priceOr0]

/-- C8 counterexample: on the snapshot with 24h change +12, the first
digest headline reads "gains 12.00%", not "drops 12.00%" — the 24h
change is positive, so the source picks the gains wording. -/
theorem news_headline_direction_cex :
    ((getCryptoNews ⟨"Bitcoin",
        ⟨JsVal.jnum 12, JsVal.jnum (-3), JsVal.jnum 300000000,
          JsVal.jnum 2000000000, 50000⟩,
        "2025-01-01", "https://bitcoin.org"⟩)[0]?).map NewsItem.title =
      some ("Bitcoin gains 12.00% in 24h") ∧
    strContainsSub ("Bitcoin gains 12.00% in 24h") ("drops 12.00%") = false := by
  have habs12 : |(12 : ℚ)| = 12 := abs_of_nonneg (by norm_num)
  have h12 : toFixed2 (12 : ℚ) = "12.00" := by
    have hf : (⌊(12 : ℚ) * 100 + 1 / 2⌋ : ℤ) = 1200 := by
      norm_num [Int.floor_eq_iff]
    simp only [toFixed2, hf]
    decide
  have hge : ((12 : ℚ) ≥ 0) := by norm_num
  refine ⟨?_, by decide⟩
  simp [getCryptoNews, habs12, h12, hge]

/-- C8 amended: for the snapshot with 24h change 12, 7d change −3,
market cap 2·10⁹ and volume 3·10⁸, the news generator yields exactly 4
digest items, the first headline ending in "gains 12.00% in 24h" and
the second in "falls 3.00% this week". -/
theorem news_scenario_titles (name url upd : String) (price : ℚ) :
    (getCryptoNews ⟨name,
        ⟨JsVal.jnum 12, JsVal.jnum (-3), JsVal.jnum 300000000,
          JsVal.jnum 2000000000, price⟩, upd, url⟩).length = 4 ∧
    ((getCryptoNews ⟨name,
        ⟨JsVal.jnum 12, JsVal.jnum (-3), JsVal.jnum 300000000,
          JsVal.jnum 2000000000, price⟩, upd, url⟩)[0]?).map NewsItem.title =
      some (name ++ " gains 12.00% in 24h") ∧
    ((getCryptoNews ⟨name,
        ⟨JsVal.jnum 12, JsVal.jnum (-3), JsVal.jnum 300000000,
          JsVal.jnum 2000000000, price⟩, upd, url⟩)[1]?).map NewsItem.title =
      some (name ++ " falls 3.00% this week") := by
  have habs12 : |(12 : ℚ)| = 12 := abs_of_nonneg (by norm_num)
  have habs3 : |(-3 : ℚ)| = 3 := by
    rw [abs_of_nonpos (by norm_num)]
    norm_num
  have h12 : toFixed2 (12 : ℚ) = "12.00" := by
    have hf : (⌊(12 : ℚ) * 100 + 1 / 2⌋ : ℤ) = 1200 := by
      norm_num [Int.floor_eq_iff]
    simp only [toFixed2, hf]
    decide
  have h3 : toFixed2 (3 : ℚ) = "3.00" := by
    have hf : (⌊(3 : ℚ) * 100 + 1 / 2⌋ : ℤ) = 300 := by
      norm_num [Int.floor_eq_iff]
    simp only [toFixed2, hf]
    decide
  have hge : ((12 : ℚ) ≥ 0) := by norm_num
  have hneg : ¬ ((-3 : ℚ) ≥ 0) := by norm_num
  have hcat1 : (" gains " : String) ++ ("12.00" ++ "% in 24h") =
      " gains 12.00% in 24h" := rfl
  have hcat2 : (" falls " : String) ++ ("3.00" ++ "% this week") =
      " falls 3.00% this week" := rfl
  refine ⟨?_, ?_, ?_⟩ <;>
    simp [getCryptoNews, habs12, habs3, h12, h3, hge, hneg,
      String.append_assoc, hcat1, hcat2]

/-- C9 counterexample: a snapshot whose trading volume is the
well-formed number 0 yields only 3 digest items — the volume item is
guarded by JS truthiness, so a zero volume emits nothing. -/
theorem news_zero_volume_cex :
    (getCryptoNews ⟨"Bitcoin",
        ⟨JsVal.jnum 12, JsVal.jnum (-3), JsVal.jnum 0,
          JsVal.jnum 2000000000, 50000⟩,
        "2025-01-01", "https://bitcoin.org"⟩).length = 3 ∧
    (JsVal.jnum 0).isNum = true := by
  refine ⟨?_, rfl⟩
  norm_num [getCryptoNews]

/-- C9 amended: the news generator emits at most four digest items;
the 24h and 7d items appear iff their field is a number, while the
volume and market-cap items appear iff their field is truthy — a
number other than 0 — so a zero volume or market cap emits nothing. -/
theorem news_emission_count (d : CryptoDetails) :
    (getCryptoNews d).length =
      (if d.market_data.price_change_percentage_24h.isNum then 1 else 0) +
      (if d.market_data.price_change_percentage_7d.isNum then 1 else 0) +
      (if d.market_data.total_volume.truthy then 1 else 0) +
      (if d.market_data.market_cap.truthy then 1 else 0) ∧
    (getCryptoNews d).length ≤ 4 := by
  obtain ⟨n, ⟨f1, f2, f3, f4, p⟩, lu, hp⟩ := d
  have hlen : (getCryptoNews ⟨n, ⟨f1, f2, f3, f4, p⟩, lu, hp⟩).length =
      (if (f1.isNum : Bool) then 1 else 0) +
      (if (f2.isNum : Bool) then 1 else 0) +
      (if (f3.truthy : Bool) then 1 else 0) +
      (if (f4.truthy : Bool) then 1 else 0) := by
    cases f1 <;> cases f2 <;> cases f3 <;> cases f4 <;>
      simp only [getCryptoNews, JsVal.isNum, JsVal.truthy, decide_eq_true_eq,
        if_true, if_false, Bool.false_eq_true, List.length_append] <;>
      (try split_ifs) <;>
      simp_all
  exact ⟨hlen, by rw [hlen]; split_ifs <;> norm_num⟩

end Gainr
